import Mathlib

/-!
Shallow embedding of the TODO.md parsing / reconciliation pipeline
(`src/docs/migrate_todo_to_postgres.py`) and of the kanban task routes
(`src/docs/kanban_api_routes_postgres.py`), with theorems settling the
frozen claims about them.

Python strings are modelled as `List Char`; regular-expression operations
used by the source (`re.match`, `re.search`, `re.sub` on the fixed patterns
appearing in the code) are modelled by executable functions with the exact
leftmost-match / backtracking semantics of those patterns.
-/

namespace MS

/-- Python's whitespace class (`\s`, and the set stripped by `str.strip()`),
restricted to ASCII. -/
def isWS (c : Char) : Bool :=
  c = ' ' || c = '\t' || c = '\n' || c = '\r' || c = '\x0b' || c = '\x0c'

/-- Length of the maximal leading whitespace run. -/
def wsLen (cs : List Char) : Nat := (cs.takeWhile isWS).length

/-- Python `str.strip()`. -/
def pstrip (cs : List Char) : List Char :=
  ((cs.dropWhile isWS).reverse.dropWhile isWS).reverse

/-- Python substring containment (`needle in haystack`). -/
def containsSub (n : List Char) : List Char → Bool
  | [] => n.isEmpty
  | c :: t => if n.isPrefixOf (c :: t) then true else containsSub n t

/-- Digit run to a natural number (`int(...)` on a digit string). -/
def digitsToNat (ds : List Char) : Nat :=
  ds.foldl (fun a c => a * 10 + (c.toNat - 48)) 0

/-- Model of `re.match(r'^##\s+(.+)$', line)`, returning group 1.  The pattern needs
`##`, at least one whitespace character, then at least one further character;
when the tail is all whitespace the greedy `\s+` backtracks one character so
that `(.+)` can match. -/
def matchSection (line : List Char) : Option (List Char) :=
  match line with
  | '#' :: '#' :: r =>
    let k := wsLen r
    if k = 0 then none
    else if k < r.length then some (r.drop k)
    else if 2 ≤ k then some (r.drop (k - 1))
    else none
  | _ => none

/-- Model of `re.match(r'^\s*-\s+\[([ x])\]\s+(.+)$', line)`, returning
(group 1 = 'x', group 2). -/
def matchTask (line : List Char) : Option (Bool × List Char) :=
  match line.dropWhile isWS with
  | '-' :: r1 =>
    let k1 := wsLen r1
    if k1 = 0 then none
    else
      match r1.drop k1 with
      | '[' :: c :: ']' :: r3 =>
        if c = ' ' || c = 'x' then
          let k := wsLen r3
          if k = 0 then none
          else if k < r3.length then some (c = 'x', r3.drop k)
          else if 2 ≤ k then some (c = 'x', r3.drop (k - 1))
          else none
        else none
      | _ => none
  | _ => none

/-- Split a list at its first `\x7d`: returns (chars before, chars after),
the "before" part containing no `\x7d`. -/
def splitBrace : List Char → Option (List Char × List Char)
  | [] => none
  | c :: cs =>
    if c = '}' then some ([], cs)
    else
      match splitBrace cs with
      | some (a, b) => some (c :: a, b)
      | none => none

/-- Model of `re.search(r'\{[^}]+\}', content)`: the leftmost span `\x7b...\x7d` with a
nonempty interior containing no `\x7d`.  Returns (prefix, interior, suffix)
with `content = prefix ++ '\x7b' :: interior ++ '\x7d' :: suffix`. -/
def findJsonSpan : List Char → Option (List Char × List Char × List Char)
  | [] => none
  | c :: cs =>
    if c = '{' then
      match splitBrace cs with
      | none => none
      | some (inner, rest) =>
        if inner.isEmpty then
          match findJsonSpan cs with
          | some (p, i, s) => some (c :: p, i, s)
          | none => none
        else some ([], inner, rest)
    else
      match findJsonSpan cs with
      | some (p, i, s) => some (c :: p, i, s)
      | none => none

/-- JSON values as they can appear inside the flat `\x7b...\x7d` spans the
parser hands to `json.loads` (the span interior contains no `\x7d`, so no
nested objects can occur). -/
inductive JVal where
  | jstr : List Char → JVal
  | jint : Int → JVal
  | jbool : Bool → JVal
  | jnull : JVal
deriving DecidableEq

/-- JSON insignificant whitespace. -/
def jskip (cs : List Char) : List Char :=
  cs.dropWhile (fun c => c = ' ' || c = '\t' || c = '\n' || c = '\r')

/-- Scan a JSON string body after the opening quote: plain characters up to
the closing quote (escape sequences and control characters are not modelled
and are treated as parse failures). -/
def scanJStr : List Char → Option (List Char × List Char)
  | [] => none
  | c :: cs =>
    if c = '"' then some ([], cs)
    else if c = '\\' || c.toNat < 32 then none
    else
      match scanJStr cs with
      | some (s, r) => some (c :: s, r)
      | none => none

/-- Scan a JSON natural-number literal (leading zeros rejected, as in JSON). -/
def scanNat (cs : List Char) : Option (Nat × List Char) :=
  let ds := cs.takeWhile Char.isDigit
  if ds.isEmpty then none
  else if 1 < ds.length ∧ ds.headI = '0' then none
  else some (digitsToNat ds, cs.drop ds.length)

/-- Scan a JSON integer literal. -/
def scanInt (cs : List Char) : Option (Int × List Char) :=
  match cs with
  | '-' :: rest => (scanNat rest).map (fun p => (-(p.1 : Int), p.2))
  | _ => (scanNat cs).map (fun p => ((p.1 : Int), p.2))

/-- Scan one JSON value (string, integer, boolean or null; fractional
numbers and arrays are not modelled and are treated as parse failures). -/
def scanJVal (cs : List Char) : Option (JVal × List Char) :=
  match cs with
  | '"' :: rest => (scanJStr rest).map (fun p => (JVal.jstr p.1, p.2))
  | 't' :: 'r' :: 'u' :: 'e' :: r => some (JVal.jbool true, r)
  | 'f' :: 'a' :: 'l' :: 's' :: 'e' :: r => some (JVal.jbool false, r)
  | 'n' :: 'u' :: 'l' :: 'l' :: r => some (JVal.jnull, r)
  | _ => (scanInt cs).map (fun p => (JVal.jint p.1, p.2))

/-- Scan the comma-separated members of a JSON object (fuelled; the fuel is
always at least the number of remaining characters). -/
def scanMembers : Nat → List Char → Option (List (List Char × JVal) × List Char)
  | 0, _ => none
  | fuel + 1, cs =>
    match jskip cs with
    | '"' :: rest =>
      match scanJStr rest with
      | none => none
      | some (k, r1) =>
        match jskip r1 with
        | ':' :: r2 =>
          match scanJVal (jskip r2) with
          | none => none
          | some (v, r3) =>
            match jskip r3 with
            | ',' :: r4 =>
              match scanMembers fuel r4 with
              | some (ms, r5) => some ((k, v) :: ms, r5)
              | none => none
            | r4 => some ([(k, v)], r4)
        | _ => none
    | _ => none

/-- Model of Python `json.loads` on the spans produced by `findJsonSpan`:
a flat JSON object with string keys and string/integer/boolean/null values.
(String escapes, fractional numbers, arrays and nested objects are treated
as parse failures; the regex-detected span cannot contain a nested object
anyway, since its interior has no closing brace.) -/
def jsonLoads (cs : List Char) : Option (List (List Char × JVal)) :=
  match jskip cs with
  | '{' :: r =>
    match jskip r with
    | '}' :: r2 => if (jskip r2).isEmpty then some [] else none
    | _ =>
      match scanMembers cs.length r with
      | some (ms, rest) =>
        match jskip rest with
        | '}' :: r2 => if (jskip r2).isEmpty then some ms else none
        | _ => none
      | none => none
  | _ => none

/-- Python `dict.get` for the decoded object (with duplicate keys the later
binding wins, as in a Python dict built by `json.loads`). -/
def jget : List (List Char × JVal) → List Char → Option JVal
  | [], _ => none
  | kv :: ms, key =>
    match jget ms key with
    | some w => some w
    | none => if kv.1 = key then some kv.2 else none

/-- Python truthiness of a decoded JSON value. -/
def jtruthy : JVal → Bool
  | .jstr s => !s.isEmpty
  | .jint n => n ≠ 0
  | .jbool b => b
  | .jnull => false

/-- Python truthiness of `dict.get(...)`'s result (`None` is falsy). -/
def pyFalsy : Option JVal → Bool
  | none => true
  | some v => !(jtruthy v)

/-- Model of `re.search(r'\((high|medium|low)\)', content)`, returning group 1 of the
leftmost match. -/
def findPrio : List Char → Option (List Char)
  | [] => none
  | c :: cs =>
    if ("(high)".toList).isPrefixOf (c :: cs) then some ("high".toList)
    else if ("(medium)".toList).isPrefixOf (c :: cs) then some ("medium".toList)
    else if ("(low)".toList).isPrefixOf (c :: cs) then some ("low".toList)
    else findPrio cs

/-- One attempted match of `\s*\((high|medium|low)\)` at the current
position, returning the remainder after the match. -/
def prioMatchAt (cs : List Char) : Option (List Char) :=
  let r := cs.drop (wsLen cs)
  if ("(high)".toList).isPrefixOf r then some (r.drop 6)
  else if ("(medium)".toList).isPrefixOf r then some (r.drop 8)
  else if ("(low)".toList).isPrefixOf r then some (r.drop 5)
  else none

/-- Fuelled scanner for `re.sub(r'\s*\((high|medium|low)\)', '', content)`:
each step either removes a leftmost match and resumes after it, or keeps one
character.  Every step strictly shortens the input, so fuel = length
suffices. -/
def subPrioGo : Nat → List Char → List Char
  | 0, cs => cs
  | _ + 1, [] => []
  | fuel + 1, c :: cs =>
    match prioMatchAt (c :: cs) with
    | some r => subPrioGo fuel r
    | none => c :: subPrioGo fuel cs

/-- Model of `re.sub(r'\s*\((high|medium|low)\)', '', content)`. -/
def subPrio (cs : List Char) : List Char := subPrioGo cs.length cs

/-- Model of `re.search(r'\(id:(\d+)\)', content)` at the current position only,
returning `int(group 1)`. -/
def idAt (cs : List Char) : Option Nat :=
  match cs with
  | '(' :: 'i' :: 'd' :: ':' :: r2 =>
    let ds := r2.takeWhile Char.isDigit
    if ds.isEmpty then none
    else
      match r2.drop ds.length with
      | ')' :: _ => some (digitsToNat ds)
      | _ => none
  | _ => none

/-- Model of `re.search(r'\(id:(\d+)\)', content)`, leftmost match. -/
def findId : List Char → Option Nat
  | [] => none
  | c :: cs =>
    match idAt (c :: cs) with
    | some n => some n
    | none => findId cs

/-- One attempted match of `\s*\(id:\d+\)` at the current position,
returning the remainder after the match. -/
def idMatchAt (cs : List Char) : Option (List Char) :=
  match cs.drop (wsLen cs) with
  | '(' :: 'i' :: 'd' :: ':' :: r2 =>
    let ds := r2.takeWhile Char.isDigit
    if ds.isEmpty then none
    else
      match r2.drop ds.length with
      | ')' :: rest => some rest
      | _ => none
  | _ => none

/-- Fuelled scanner for `re.sub(r'\s*\(id:\d+\)', '', content)`. -/
def subIdGo : Nat → List Char → List Char
  | 0, cs => cs
  | _ + 1, [] => []
  | fuel + 1, c :: cs =>
    match idMatchAt (c :: cs) with
    | some r => subIdGo fuel r
    | none => c :: subIdGo fuel cs

/-- Model of `re.sub(r'\s*\(id:\d+\)', '', content)`. -/
def subId (cs : List Char) : List Char := subIdGo cs.length cs

/-- The record built by `TodoParser._parse_task_content`
(`src/docs/migrate_todo_to_postgres.py` lines 110-122).  The `section` field
of the Python dict is named `sect` here because `section` is a Lean keyword. -/
structure TaskRecord where
  original_id : Option Nat
  content : List Char
  status : List Char
  priority : List Char
  sect : List Char
  epic : Option JVal
  area : List Char
  occurrence_count : JVal
  created_at : Option JVal
  completed_at : Option JVal
  position : Nat
deriving DecidableEq

/-- Lines 77-86: detect the first `\x7b...\x7d` span, try `json.loads` on it;
on success truncate the content at the span's start (and strip), on failure
leave the content unmodified and keep an empty metadata dict. -/
def extract_metadata (content : List Char) : List (List Char × JVal) × List Char :=
  match findJsonSpan content with
  | none => ([], content)
  | some (pre, inner, _post) =>
    match jsonLoads ('{' :: (inner ++ ['}'])) with
    | some m => (m, pstrip pre)
    | none => ([], content)

/-- Lines 88-93: extract the priority marker (default "medium") and remove
every `\s*\((high|medium|low)\)` occurrence when one was found. -/
def strip_priority (content : List Char) : List Char × List Char :=
  match findPrio content with
  | some p => (p, subPrio content)
  | none => (("medium".toList), content)

/-- Lines 95-100: extract the `(id:N)` marker and remove every
`\s*\(id:\d+\)` occurrence when one was found. -/
def strip_id (content : List Char) : Option Nat × List Char :=
  match findId content with
  | some n => (some n, subId content)
  | none => (none, content)

/-- Lines 102-107: epic from the metadata when truthy, else the
colon-delimited prefix of the content when that prefix is shorter than 50
characters. -/
def epic_fallback (epic0 : Option JVal) (content : List Char) : Option JVal :=
  if pyFalsy epic0 && content.contains ':' then
    let p0 := content.takeWhile (fun c => c ≠ ':')
    if p0.length < 50 then some (JVal.jstr (pstrip p0)) else epic0
  else epic0

/-- Body of `TodoParser._parse_task_content` (lines 75-122). -/
def parse_task_content (content0 : List Char) (sec : List Char)
    (is_completed : Bool) (position : Nat) : TaskRecord :=
  let em := extract_metadata content0
  let metadata := em.1
  let pc := strip_priority em.2
  let ic := strip_id pc.2
  let epic := epic_fallback (jget metadata ("epic".toList)) ic.2
  { original_id := ic.1
    content := pstrip ic.2
    status := if is_completed then ("completed".toList) else ("pending".toList)
    priority := pc.1
    sect := sec
    epic := epic
    area := ("general".toList)
    occurrence_count := (jget metadata ("occurrence_count".toList)).getD (JVal.jint 1)
    created_at := jget metadata ("created_at".toList)
    completed_at := if is_completed then jget metadata ("completed_at".toList) else none
    position := position }

/-- Lines 50-58: normalize a (stripped) heading name by substring
containment; an unrecognized heading leaves the current section unchanged. -/
def normSection (name current : List Char) : List Char :=
  if containsSub ("Backlog".toList) name || containsSub ("Not Yet".toList) name then
    ("Backlog".toList)
  else if containsSub ("To Do".toList) name then ("To Do".toList)
  else if containsSub ("In Progress".toList) name then ("In Progress".toList)
  else if containsSub ("Completed".toList) name then ("Completed".toList)
  else current

/-- The line loop of `TodoParser.parse` (lines 45-72), carrying the
`current_section` and `position` state. -/
def parseLines : List (List Char) → List Char → Nat → List TaskRecord
  | [], _, _ => []
  | line :: rest, sec, pos =>
    match matchSection line with
    | some g => parseLines rest (normSection (pstrip g) sec) 0
    | none =>
      match matchTask line with
      | some ig =>
        parse_task_content (pstrip ig.2) sec ig.1 pos :: parseLines rest sec (pos + 1)
      | none => parseLines rest sec pos

/-- Python `str.split('\n')` (always returns at least one piece). -/
def splitLines : List Char → List (List Char)
  | [] => [[]]
  | c :: cs =>
    if c = '\n' then [] :: splitLines cs
    else
      match splitLines cs with
      | l :: ls => (c :: l) :: ls
      | [] => [[c]]

/-- Body of `TodoParser.parse` (lines 34-73) on the text of the document, with the
initial state `current_section = "Backlog"`, `position = 0`.  (The
file-existence check of lines 36-37 is a collaborator concern and is not
part of the text-to-records conversion.) -/
def parse (doc : List Char) : List TaskRecord :=
  parseLines (splitLines doc) ("Backlog".toList) 0

/-- Model of `datetime.fromisoformat`, restricted to
`YYYY-MM-DD[<sep>HH[:MM[:SS]]]` with a single arbitrary separator character:
returns the input on success.  Fractional seconds and timezone offsets are
not modelled (treated as parse failures). -/
def isoDigits (l : List Char) : Bool := l.all Char.isDigit

/-- Number of days in a month, Gregorian rules (as validated by
`datetime`). -/
def daysInMonth (y m : Nat) : Nat :=
  if m = 2 then
    if y % 4 = 0 ∧ (y % 100 ≠ 0 ∨ y % 400 = 0) then 29 else 28
  else if m = 4 ∨ m = 6 ∨ m = 9 ∨ m = 11 then 30
  else 31

/-- Validity of the `HH[:MM[:SS]]` part. -/
def validTime : List Char → Bool
  | [h1, h2] =>
    isoDigits [h1, h2] && decide (digitsToNat [h1, h2] < 24)
  | [h1, h2, ':', m1, m2] =>
    isoDigits [h1, h2, m1, m2] &&
      decide (digitsToNat [h1, h2] < 24 ∧ digitsToNat [m1, m2] < 60)
  | [h1, h2, ':', m1, m2, ':', s1, s2] =>
    isoDigits [h1, h2, m1, m2, s1, s2] &&
      decide (digitsToNat [h1, h2] < 24 ∧ digitsToNat [m1, m2] < 60 ∧
        digitsToNat [s1, s2] < 60)
  | _ => false

/-- Validity of the `YYYY-MM-DD` part. -/
def validDate (y1 y2 y3 y4 m1 m2 d1 d2 : Char) : Bool :=
  isoDigits [y1, y2, y3, y4, m1, m2, d1, d2] &&
    decide (1 ≤ digitsToNat [y1, y2, y3, y4] ∧
      1 ≤ digitsToNat [m1, m2] ∧ digitsToNat [m1, m2] ≤ 12 ∧
      1 ≤ digitsToNat [d1, d2] ∧
      digitsToNat [d1, d2] ≤ daysInMonth (digitsToNat [y1, y2, y3, y4]) (digitsToNat [m1, m2]))

/-- Model of `datetime.fromisoformat` (modelled subset, see above): `some s` when the
string parses, `none` when it raises. -/
def fromisoformat (s : List Char) : Option (List Char) :=
  match s with
  | [y1, y2, y3, y4, '-', m1, m2, '-', d1, d2] =>
    if validDate y1 y2 y3 y4 m1 m2 d1 d2 then some s else none
  | y1 :: y2 :: y3 :: y4 :: '-' :: m1 :: m2 :: '-' :: d1 :: d2 :: _sep :: rest =>
    if validDate y1 y2 y3 y4 m1 m2 d1 d2 && validTime rest then some s else none
  | _ => none

/-- A row of the `kanban_tasks` table as created by
`DatabaseMigrator.migrate_tasks` (lines 154-177).  `created_at` /
`completed_at` hold the parsed override string; `none` means the column is
left at its store-assigned default. -/
structure KanbanTask where
  content : List Char
  status : List Char
  priority : List Char
  owner : List Char
  sect : List Char
  epic : Option JVal
  area : List Char
  occurrence_count : JVal
  position : Nat
  created_at : Option (List Char)
  completed_at : Option (List Char)
deriving DecidableEq

/-- Lines 166-177: apply a timestamp override only when the metadata value
is present and truthy and `datetime.fromisoformat` succeeds on it; any
failure (including the `TypeError` on a non-string value) is swallowed by
the bare `except` and leaves the column at its default. -/
def applyTimestamp : Option JVal → Option (List Char)
  | none => none
  | some v =>
    if jtruthy v then
      match v with
      | .jstr s => fromisoformat s
      | _ => none
    else none

/-- Lines 154-177: the row built for one task record (`owner='agent'` is
hard-coded). -/
def taskFromRecord (td : TaskRecord) : KanbanTask :=
  { content := td.content
    status := td.status
    priority := td.priority
    owner := ("agent".toList)
    sect := td.sect
    epic := td.epic
    area := td.area
    occurrence_count := td.occurrence_count
    position := td.position
    created_at := applyTimestamp td.created_at
    completed_at := applyTimestamp td.completed_at }

/-- The duplicate check of lines 144-147: `filter_by(content=..., section=...)`. -/
def sameKey (td : TaskRecord) (t : KanbanTask) : Bool :=
  decide (t.content = td.content ∧ t.sect = td.sect)

/-- Body of `DatabaseMigrator.migrate_tasks` (lines 133-185): returns the number of
inserted rows and the resulting store.  The store is modelled as the list of
rows visible to the session's queries; since the session autoflushes pending
inserts before each query, a newly added row is visible to the duplicate
check for the remaining records of the same batch. -/
def migrate_tasks : List TaskRecord → List KanbanTask → Nat × List KanbanTask
  | [], store => (0, store)
  | td :: rest, store =>
    if store.any (sameKey td) then migrate_tasks rest store
    else
      let r := migrate_tasks rest (store ++ [taskFromRecord td])
      (r.1 + 1, r.2)

/-- A persisted task as manipulated by the kanban API routes
(`src/docs/kanban_api_routes_postgres.py`).  Timestamps are abstract
instants (`Nat`); `none` means NULL.  The DB-managed `updated_at` column
(set by the ORM on every update) is store machinery and is not a field the
route code reads or writes. -/
structure DbTask where
  id : Nat
  content : List Char
  status : List Char
  priority : List Char
  owner : List Char
  sect : List Char
  epic : Option (List Char)
  area : List Char
  occurrence_count : Int
  position : Int
  created_at : Option Nat
  completed_at : Option Nat
deriving DecidableEq

/-- Body of the `move_task` route (lines 254-286), after the 404 check: set section and
position; if moving to "Completed" while the status is not already
"completed", set status and stamp `completed_at`; if moving from
"Completed" to another section, reset status to "pending" and clear
`completed_at`. -/
def move_task (task : DbTask) (newSection : List Char) (newPosition : Int)
    (now : Nat) : DbTask :=
  let oldSection := task.sect
  let t1 := { task with sect := newSection, position := newPosition }
  let t2 :=
    if newSection = ("Completed".toList) ∧ t1.status ≠ ("completed".toList) then
      { t1 with status := ("completed".toList), completed_at := some now }
    else t1
  if oldSection = ("Completed".toList) ∧ newSection ≠ ("Completed".toList) then
    { t2 with status := ("pending".toList), completed_at := none }
  else t2

/-- Body of the `complete_task` route (lines 312-333), after the 404 check: unconditionally
set status to "completed", move to section "Completed" and stamp
`completed_at`. -/
def complete_task (task : DbTask) (now : Nat) : DbTask :=
  { task with
    status := ("completed".toList)
    sect := ("Completed".toList)
    completed_at := some now }

/-! Concrete instances used by the witness theorems. -/

/-- A concrete parsed record with content "X" in section Backlog. -/
def tdX : TaskRecord := parse_task_content (("X").toList) (("Backlog").toList) false 0

/-- A concrete parsed record with content "Y" in section "To Do". -/
def tdY1 : TaskRecord := parse_task_content (("Y").toList) (("To Do").toList) false 0

/-- A concrete parsed record with the same content "Y" in section "In Progress". -/
def tdY2 : TaskRecord := parse_task_content (("Y").toList) (("In Progress").toList) false 0

/-- A concrete one-row store holding the row for `tdX`. -/
def storeX : List KanbanTask := [taskFromRecord tdX]

/-- A concrete record carrying a parseable `created_at` override and an
unparseable `completed_at` override. -/
def tdTimes : TaskRecord :=
  { original_id := none
    content := ("Z").toList
    status := ("completed").toList
    priority := ("medium").toList
    sect := ("Completed").toList
    epic := none
    area := ("general").toList
    occurrence_count := JVal.jint 1
    created_at := some (JVal.jstr (("2024-03-15").toList))
    completed_at := some (JVal.jstr (("not-a-date").toList))
    position := 0 }

/-- A concrete task already marked completed but sitting in "In Progress"
with no completion timestamp (as the migration can produce). -/
def dbMoveA : DbTask :=
  { id := 1
    content := ("T").toList
    status := ("completed").toList
    priority := ("medium").toList
    owner := ("agent").toList
    sect := ("In Progress").toList
    epic := none
    area := ("general").toList
    occurrence_count := 1
    position := 0
    created_at := none
    completed_at := none }

/-- A concrete pending task in "To Do". -/
def dbMoveB : DbTask :=
  { id := 2
    content := ("U").toList
    status := ("pending").toList
    priority := ("high").toList
    owner := ("user").toList
    sect := ("To Do").toList
    epic := none
    area := ("general").toList
    occurrence_count := 1
    position := 3
    created_at := some 1
    completed_at := none }

/-- A concrete completed task in "Completed" with a completion timestamp. -/
def dbMoveC : DbTask :=
  { id := 3
    content := ("V").toList
    status := ("completed").toList
    priority := ("low").toList
    owner := ("agent").toList
    sect := ("Completed").toList
    epic := none
    area := ("general").toList
    occurrence_count := 1
    position := 0
    created_at := some 1
    completed_at := some 3 }

/-! Helper lemmas shared by the claim theorems. -/

theorem fromisoformat_nil : fromisoformat [] = none := rfl

theorem splitBrace_append (body t : List Char) (h : '}' ∉ body) :
    splitBrace (body ++ '}' :: t) = some (body, t) := by
  induction body with
  | nil => simp [splitBrace]
  | cons c cs ih =>
    have hc : c ≠ '}' := fun hc => h (hc ▸ List.mem_cons_self c cs)
    have hcs : '}' ∉ cs := fun hm => h (List.mem_cons_of_mem c hm)
    simp [splitBrace, hc, ih hcs]

theorem findJsonSpan_append (s body t : List Char) (hs : '{' ∉ s)
    (hb1 : body ≠ []) (hb2 : '}' ∉ body) :
    findJsonSpan (s ++ '{' :: (body ++ '}' :: t)) = some (s, body, t) := by
  induction s with
  | nil =>
    simp only [List.nil_append, findJsonSpan, if_pos rfl,
      splitBrace_append body t hb2]
    simp [List.isEmpty_iff, hb1]
  | cons c cs ih =>
    have hc : c ≠ '{' := fun hc => hs (hc ▸ List.mem_cons_self c cs)
    have hcs : '{' ∉ cs := fun hm => hs (List.mem_cons_of_mem c hm)
    simp [findJsonSpan, hc, ih hcs]

theorem parse_task_content_position (c s : List Char) (b : Bool) (p : Nat) :
    (parse_task_content c s b p).position = p := rfl

theorem parse_task_content_sect (c s : List Char) (b : Bool) (p : Nat) :
    (parse_task_content c s b p).sect = s := rfl

theorem parseLines_positions (ls : List (List Char)) (sec : List Char) (p : Nat)
    (h : ∀ l ∈ ls, matchSection l = none) :
    (parseLines ls sec p).map TaskRecord.position
      = List.range' p (parseLines ls sec p).length := by
  induction ls generalizing p with
  | nil => simp [parseLines]
  | cons l ls ih =>
    have hl : matchSection l = none := h l (List.mem_cons_self l ls)
    have hrest : ∀ x ∈ ls, matchSection x = none :=
      fun x hx => h x (List.mem_cons_of_mem l hx)
    cases ht : matchTask l with
    | some ig =>
      simp only [parseLines, hl, ht, List.map_cons, List.length_cons,
        parse_task_content_position, List.range'_succ]
      rw [ih (p + 1) hrest]
    | none =>
      simp only [parseLines, hl, ht]
      exact ih p hrest

theorem taskFromRecord_content (td : TaskRecord) :
    (taskFromRecord td).content = td.content := rfl

theorem taskFromRecord_sect (td : TaskRecord) :
    (taskFromRecord td).sect = td.sect := rfl

theorem sameKey_taskFromRecord (td : TaskRecord) :
    sameKey td (taskFromRecord td) = true := by
  simp [sameKey, taskFromRecord]

theorem migrate_tasks_any_mono (tasks : List TaskRecord) (store : List KanbanTask)
    (p : KanbanTask → Bool) (h : store.any p = true) :
    ((migrate_tasks tasks store).2).any p = true := by
  induction tasks generalizing store with
  | nil => simpa [migrate_tasks] using h
  | cons td rest ih =>
    by_cases hd : store.any (sameKey td) = true
    · simp only [migrate_tasks, if_pos hd]
      exact ih store h
    · simp only [migrate_tasks, if_neg hd]
      refine ih (store ++ [taskFromRecord td]) ?_
      rw [List.any_append]
      simp [h]

theorem migrate_tasks_key_present (tasks : List TaskRecord) (store : List KanbanTask)
    (td : TaskRecord) (h : td ∈ tasks) :
    ((migrate_tasks tasks store).2).any (sameKey td) = true := by
  induction tasks generalizing store with
  | nil => cases h
  | cons td0 rest ih =>
    rcases List.mem_cons.mp h with h0 | hrest
    · subst h0
      by_cases hd : store.any (sameKey td) = true
      · simp only [migrate_tasks, if_pos hd]
        exact migrate_tasks_any_mono rest store _ hd
      · simp only [migrate_tasks, if_neg hd]
        refine migrate_tasks_any_mono rest (store ++ [taskFromRecord td]) _ ?_
        rw [List.any_append]
        simp [sameKey_taskFromRecord]
    · by_cases hd : store.any (sameKey td0) = true
      · simp only [migrate_tasks, if_pos hd]
        exact ih store hrest
      · simp only [migrate_tasks, if_neg hd]
        exact ih (store ++ [taskFromRecord td0]) hrest

theorem migrate_tasks_all_dup (tasks : List TaskRecord) (store : List KanbanTask)
    (h : ∀ td ∈ tasks, store.any (sameKey td) = true) :
    migrate_tasks tasks store = (0, store) := by
  induction tasks with
  | nil => rfl
  | cons td rest ih =>
    have hd : store.any (sameKey td) = true := h td (List.mem_cons_self td rest)
    simp only [migrate_tasks, if_pos hd]
    exact ih (fun x hx => h x (List.mem_cons_of_mem td hx))

/-! The claim theorems. -/

/-- C1: the task line `- [x] Ship release (high) (id:42) \x7b"epic":"Launch"\x7d`
after a `## In Progress` heading parses to a single record with
content="Ship release", status=completed, priority=high, original_id=42,
epic="Launch", section="In Progress" (and the default values for the
remaining fields). -/
theorem c1_example_line :
    parse (("## In Progress\n- [x] Ship release (high) (id:42) \x7b\"epic\":\"Launch\"\x7d").toList)
      = [{ original_id := some 42
           content := ("Ship release").toList
           status := ("completed").toList
           priority := ("high").toList
           sect := ("In Progress").toList
           epic := some (JVal.jstr (("Launch").toList))
           area := ("general").toList
           occurrence_count := JVal.jint 1
           created_at := none
           completed_at := none
           position := 0 }] := by
  decide

/-- C4: reconciliation partitions by the (content, section) identity key
under exact equality: a record whose key already occurs in the store is
skipped with zero insertions and the store unchanged, while two records
with the same content but different sections are both inserted. -/
theorem c4_identity_key (store : List KanbanTask) (td td1 td2 : TaskRecord)
    (h1 : store.any (sameKey td) = true)
    (h2 : td1.content = td2.content) (h3 : td1.sect ≠ td2.sect)
    (h4 : store.any (sameKey td1) = false)
    (h5 : store.any (sameKey td2) = false) :
    migrate_tasks [td] store = (0, store)
    ∧ migrate_tasks [td1, td2] store
        = (2, store ++ [taskFromRecord td1, taskFromRecord td2]) := by
  constructor
  · simp only [migrate_tasks, if_pos h1]
  · have hne : store.any (sameKey td1) ≠ true := by simp [h4]
    have hk : sameKey td2 (taskFromRecord td1) = false := by
      simp only [sameKey, taskFromRecord_content, taskFromRecord_sect,
        decide_eq_false_iff_not]
      rintro ⟨-, hs⟩
      exact h3 hs
    have hne2 : (store ++ [taskFromRecord td1]).any (sameKey td2) ≠ true := by
      rw [List.any_append]
      simp [h5, hk]
    simp only [migrate_tasks, if_neg hne, if_neg hne2, List.append_assoc,
      List.singleton_append]

/-- Witness for C4 at a concrete store and concrete records. -/
theorem c4_identity_key_witness :
    ((storeX.any (sameKey tdX) = true)
     ∧ tdY1.content = tdY2.content
     ∧ tdY1.sect ≠ tdY2.sect
     ∧ storeX.any (sameKey tdY1) = false
     ∧ storeX.any (sameKey tdY2) = false)
    ∧ migrate_tasks [tdX] storeX = (0, storeX)
    ∧ migrate_tasks [tdY1, tdY2] storeX
        = (2, storeX ++ [taskFromRecord tdY1, taskFromRecord tdY2]) :=
  ⟨⟨by decide, by decide, by decide, by decide, by decide⟩,
    (c4_identity_key storeX tdX tdY1 tdY2 (by decide) (by decide) (by decide)
      (by decide) (by decide)).1,
    (c4_identity_key storeX tdX tdY1 tdY2 (by decide) (by decide) (by decide)
      (by decide) (by decide)).2⟩

/-- C5: parsing a document and reconciling it into an empty store, then
re-parsing the same document and reconciling against the resulting store,
inserts nothing on the second pass. -/
theorem c5_round_trip_idempotent (doc : List Char) :
    migrate_tasks (parse doc) (migrate_tasks (parse doc) []).2
      = (0, (migrate_tasks (parse doc) []).2) :=
  migrate_tasks_all_dup _ _
    (fun td h => migrate_tasks_key_present (parse doc) [] td h)

/-- C9: the complete operation sets status to "completed", moves the task
into section "Completed" and stamps `completed_at` with the current time,
unconditionally; every other field of the task is unchanged.  (The
DB-managed `updated_at` column is store machinery outside the route.) -/
theorem c9_complete_task (t : DbTask) (now : Nat) :
    (complete_task t now).status = ("completed").toList
    ∧ (complete_task t now).sect = ("Completed").toList
    ∧ (complete_task t now).completed_at = some now
    ∧ (complete_task t now).id = t.id
    ∧ (complete_task t now).content = t.content
    ∧ (complete_task t now).priority = t.priority
    ∧ (complete_task t now).owner = t.owner
    ∧ (complete_task t now).epic = t.epic
    ∧ (complete_task t now).area = t.area
    ∧ (complete_task t now).occurrence_count = t.occurrence_count
    ∧ (complete_task t now).position = t.position
    ∧ (complete_task t now).created_at = t.created_at :=
  ⟨rfl, rfl, rfl, rfl, rfl, rfl, rfl, rfl, rfl, rfl, rfl, rfl⟩

/-- C10: the parser's records carry no owner field (the `TaskRecord`
structure has none), and every row the reconciler adds to the store is
created with owner="agent"; rows already in the store are untouched. -/
theorem c10_owner_agent :
    (∀ td : TaskRecord, (taskFromRecord td).owner = ("agent").toList)
    ∧ (∀ (tasks : List TaskRecord) (store : List KanbanTask) (t : KanbanTask),
        t ∈ (migrate_tasks tasks store).2 →
        t ∈ store ∨ t.owner = ("agent").toList) := by
  constructor
  · intro td
    rfl
  · intro tasks
    induction tasks with
    | nil =>
      intro store t ht
      exact Or.inl (by simpa [migrate_tasks] using ht)
    | cons td rest ih =>
      intro store t ht
      by_cases hd : store.any (sameKey td) = true
      · rw [migrate_tasks, if_pos hd] at ht
        exact ih store t ht
      · rw [migrate_tasks, if_neg hd] at ht
        rcases ih (store ++ [taskFromRecord td]) t ht with hmem | hag
        · rcases List.mem_append.mp hmem with hs | hnew
          · exact Or.inl hs
          · right
            have : t = taskFromRecord td := by simpa using hnew
            rw [this]
            rfl
        · exact Or.inr hag

/-- Witness for C10: a freshly migrated row has owner="agent". -/
theorem c10_owner_agent_witness :
    (taskFromRecord tdX ∈ (migrate_tasks [tdX] []).2)
    ∧ (taskFromRecord tdX ∈ ([] : List KanbanTask)
       ∨ (taskFromRecord tdX).owner = ("agent").toList) :=
  ⟨by decide, c10_owner_agent.2 [tdX] [] (taskFromRecord tdX) (by decide)⟩

/-- Counterexample to C2: in
`Alpha \x7b"epic":"E"\x7d Beta` the text "Beta" after the JSON fragment is
not retained — the emitted content is "Alpha", because the code truncates
the content at the start of the JSON span instead of removing only the
span. -/
theorem c2_counterexample :
    (parse_task_content (("Alpha \x7b\"epic\":\"E\"\x7d Beta").toList)
        (("Backlog").toList) false 0).content = ("Alpha").toList
    ∧ containsSub (("Beta").toList)
        ((parse_task_content (("Alpha \x7b\"epic\":\"E\"\x7d Beta").toList)
          (("Backlog").toList) false 0).content) = false := by
  decide

/-- C2 as amended: when the JSON fragment parses, the fragment AND all text
after it are discarded — the emitted record depends only on the text before
the fragment (which then has priority/id markers removed and is trimmed);
so the record parsed from `s ++ fragment ++ t` equals the one parsed from
`s ++ fragment`. -/
theorem c2_amended (s body t sec : List Char) (b : Bool) (pos : Nat)
    (hs : '{' ∉ s) (hb1 : body ≠ []) (hb2 : '}' ∉ body)
    (hj : (jsonLoads ('{' :: (body ++ ['}']))).isSome = true) :
    parse_task_content (s ++ '{' :: (body ++ '}' :: t)) sec b pos
      = parse_task_content (s ++ '{' :: (body ++ ['}'])) sec b pos := by
  obtain ⟨m, hm⟩ := Option.isSome_iff_exists.mp hj
  have h1 : extract_metadata (s ++ '{' :: (body ++ '}' :: t)) = (m, pstrip s) := by
    simp only [extract_metadata, findJsonSpan_append s body t hs hb1 hb2, hm]
  have h2 : extract_metadata (s ++ '{' :: (body ++ ['}'])) = (m, pstrip s) := by
    simp only [extract_metadata, findJsonSpan_append s body [] hs hb1 hb2, hm]
  simp only [parse_task_content, h1, h2]

/-- Witness for C2 (amended) at a concrete line with text after the JSON. -/
theorem c2_amended_witness :
    ('{' ∉ (("Alpha ").toList)
     ∧ (("\"epic\":\"E\"").toList) ≠ ([] : List Char)
     ∧ '}' ∉ (("\"epic\":\"E\"").toList)
     ∧ (jsonLoads ('{' :: ((("\"epic\":\"E\"").toList) ++ ['}']))).isSome = true)
    ∧ parse_task_content
        ((("Alpha ").toList) ++ '{' :: ((("\"epic\":\"E\"").toList) ++ '}' :: ((" Beta").toList)))
        (("Backlog").toList) false 0
      = parse_task_content
        ((("Alpha ").toList) ++ '{' :: ((("\"epic\":\"E\"").toList) ++ ['}']))
        (("Backlog").toList) false 0 :=
  ⟨⟨by decide, by decide, by decide, by decide⟩,
   c2_amended (("Alpha ").toList) (("\"epic\":\"E\"").toList) ((" Beta").toList)
     (("Backlog").toList) false 0 (by decide) (by decide) (by decide) (by decide)⟩

/-- Counterexample to C3: two headings that normalize to the same section
each reset the position counter, so the section "To Do" receives positions
[0, 0] — not a contiguous sequence 0, 1. -/
theorem c3_counterexample :
    ((parse (("## To Do\n- [ ] A\n## More To Do\n- [ ] B").toList)).filter
        (fun r => decide (r.sect = ("To Do").toList))).map TaskRecord.position
      = [0, 0]
    ∧ ([0, 0] : List Nat) ≠ List.range 2 := by
  decide

/-- C3 as amended: position values are contiguous from 0 within each maximal
run of lines between headings (part 1), and the counter is reset to 0 at
EVERY heading line — even one whose normalized section equals the current
one, or an unrecognized one that leaves the section unchanged (part 2). -/
theorem c3_amended :
    (∀ (sec : List Char) (ls : List (List Char)),
        (∀ l ∈ ls, matchSection l = none) →
        (parseLines ls sec 0).map TaskRecord.position
          = List.range (parseLines ls sec 0).length)
    ∧ (∀ (hline g : List Char) (rest : List (List Char)) (sec : List Char) (pos : Nat),
        matchSection hline = some g →
        parseLines (hline :: rest) sec pos
          = parseLines rest (normSection (pstrip g) sec) 0) := by
  constructor
  · intro sec ls h
    rw [List.range_eq_range']
    exact parseLines_positions ls sec 0 h
  · intro hline g rest sec pos h
    simp [parseLines, h]

/-- Witness for C3 (amended) on concrete heading-free lines and a concrete
heading. -/
theorem c3_amended_witness :
    ((∀ l ∈ [("- [ ] A").toList, ("- [ ] B").toList], matchSection l = none)
     ∧ matchSection (("## Done Completed").toList) = some (("Done Completed").toList))
    ∧ (parseLines [("- [ ] A").toList, ("- [ ] B").toList] (("Backlog").toList) 0).map
        TaskRecord.position
      = List.range
          (parseLines [("- [ ] A").toList, ("- [ ] B").toList] (("Backlog").toList) 0).length
    ∧ parseLines [("## Done Completed").toList, ("- [ ] C").toList] (("Backlog").toList) 7
      = parseLines [("- [ ] C").toList]
          (normSection (pstrip (("Done Completed").toList)) (("Backlog").toList)) 0 :=
  ⟨⟨by decide, by decide⟩,
   c3_amended.1 (("Backlog").toList) [("- [ ] A").toList, ("- [ ] B").toList] (by decide),
   c3_amended.2 (("## Done Completed").toList) (("Done Completed").toList)
     [("- [ ] C").toList] (("Backlog").toList) 7 (by decide)⟩

/-- Counterexample to C6: for `Task \x7bnot json\x7d` a span IS detected and
its JSON parse fails, and the malformed text remains in the content even
though it lies inside the detected span (the code leaves the whole content
unmodified on a parse failure, contradicting "remains only if it falls
outside the detected span"). -/
theorem c6_counterexample :
    findJsonSpan (("Task \x7bnot json\x7d").toList)
      = some ((("Task ").toList), (("not json").toList), ([] : List Char))
    ∧ (parse_task_content (("Task \x7bnot json\x7d").toList)
        (("Backlog").toList) false 0).content
      = ("Task \x7bnot json\x7d").toList := by
  decide

/-- C6 as amended: on a detected span whose JSON parse fails the parser does
not raise (it is a total function); the record is emitted with
occurrence_count = 1, no timestamp metadata, the epic computed by the
fallback rule over the marker-stripped content, and the content left
unmodified by the JSON step — the malformed fragment remains in the content
whether inside or outside the span (subject only to priority/id marker
stripping and final trimming). -/
theorem c6_amended (c pre inner post sec : List Char) (b : Bool) (pos : Nat)
    (hspan : findJsonSpan c = some (pre, inner, post))
    (hfail : jsonLoads ('{' :: (inner ++ ['}'])) = none) :
    (parse_task_content c sec b pos).occurrence_count = JVal.jint 1
    ∧ (parse_task_content c sec b pos).created_at = none
    ∧ (parse_task_content c sec b pos).completed_at = none
    ∧ (parse_task_content c sec b pos).epic
        = epic_fallback none ((strip_id (strip_priority c).2).2)
    ∧ (parse_task_content c sec b pos).content
        = pstrip ((strip_id (strip_priority c).2).2) := by
  have hem : extract_metadata c = ([], c) := by
    simp only [extract_metadata, hspan, hfail]
  refine ⟨?_, ?_, ?_, ?_, ?_⟩
  · simp [parse_task_content, hem, jget]
  · simp [parse_task_content, hem, jget]
  · cases b <;> simp [parse_task_content, hem, jget]
  · simp [parse_task_content, hem, jget]
  · simp [parse_task_content, hem]

/-- Witness for C6 (amended) at a concrete malformed fragment. -/
theorem c6_amended_witness :
    (findJsonSpan (("Note \x7bbad bad\x7d tail").toList)
        = some ((("Note ").toList), (("bad bad").toList), ((" tail").toList))
     ∧ jsonLoads ('{' :: ((("bad bad").toList) ++ ['}'])) = none)
    ∧ (parse_task_content (("Note \x7bbad bad\x7d tail").toList)
          (("Backlog").toList) true 3).occurrence_count = JVal.jint 1
    ∧ (parse_task_content (("Note \x7bbad bad\x7d tail").toList)
          (("Backlog").toList) true 3).created_at = none
    ∧ (parse_task_content (("Note \x7bbad bad\x7d tail").toList)
          (("Backlog").toList) true 3).completed_at = none
    ∧ (parse_task_content (("Note \x7bbad bad\x7d tail").toList)
          (("Backlog").toList) true 3).epic
        = epic_fallback none
            ((strip_id (strip_priority (("Note \x7bbad bad\x7d tail").toList)).2).2)
    ∧ (parse_task_content (("Note \x7bbad bad\x7d tail").toList)
          (("Backlog").toList) true 3).content
        = pstrip ((strip_id (strip_priority (("Note \x7bbad bad\x7d tail").toList)).2).2) :=
  ⟨⟨by decide, by decide⟩,
   c6_amended (("Note \x7bbad bad\x7d tail").toList) (("Note ").toList)
     (("bad bad").toList) ((" tail").toList) (("Backlog").toList) true 3
     (by decide) (by decide)⟩

/-- C7: a timestamp override is applied to the created row only when the
metadata value is present (and truthy) and parses as an ISO-8601 timestamp;
when the string fails to parse the failure is swallowed (the migration is a
total function, and the insertion still happens) and the column is left at
its store-assigned default (`none`). -/
theorem c7_timestamp_overrides (td : TaskRecord) (store : List KanbanTask)
    (s u : List Char) :
    (td.created_at = some (JVal.jstr s) → fromisoformat s = some u →
      (taskFromRecord td).created_at = some u)
    ∧ (td.created_at = some (JVal.jstr s) → fromisoformat s = none →
      (taskFromRecord td).created_at = none)
    ∧ (td.created_at = none → (taskFromRecord td).created_at = none)
    ∧ (td.completed_at = some (JVal.jstr s) → fromisoformat s = some u →
      (taskFromRecord td).completed_at = some u)
    ∧ (td.completed_at = some (JVal.jstr s) → fromisoformat s = none →
      (taskFromRecord td).completed_at = none)
    ∧ (td.completed_at = none → (taskFromRecord td).completed_at = none)
    ∧ (store.any (sameKey td) = false →
      migrate_tasks [td] store = (1, store ++ [taskFromRecord td])) := by
  have hc : (taskFromRecord td).created_at = applyTimestamp td.created_at := rfl
  have hd : (taskFromRecord td).completed_at = applyTimestamp td.completed_at := rfl
  refine ⟨?_, ?_, ?_, ?_, ?_, ?_, ?_⟩
  · intro h1 h2
    rw [hc, h1]
    cases s with
    | nil => rw [fromisoformat_nil] at h2; cases h2
    | cons a as => simpa [applyTimestamp, jtruthy] using h2
  · intro h1 h2
    rw [hc, h1]
    cases s with
    | nil => simp [applyTimestamp, jtruthy]
    | cons a as => simpa [applyTimestamp, jtruthy] using h2
  · intro h1
    rw [hc, h1]
    rfl
  · intro h1 h2
    rw [hd, h1]
    cases s with
    | nil => rw [fromisoformat_nil] at h2; cases h2
    | cons a as => simpa [applyTimestamp, jtruthy] using h2
  · intro h1 h2
    rw [hd, h1]
    cases s with
    | nil => simp [applyTimestamp, jtruthy]
    | cons a as => simpa [applyTimestamp, jtruthy] using h2
  · intro h1
    rw [hd, h1]
    rfl
  · intro h
    have hne : store.any (sameKey td) ≠ true := by simp [h]
    simp only [migrate_tasks, if_neg hne]

/-- Witness for C7: a row migrated from a record with a parseable
`created_at` and an unparseable `completed_at`. -/
theorem c7_timestamp_overrides_witness :
    (tdTimes.created_at = some (JVal.jstr (("2024-03-15").toList))
     ∧ fromisoformat (("2024-03-15").toList) = some (("2024-03-15").toList)
     ∧ tdTimes.completed_at = some (JVal.jstr (("not-a-date").toList))
     ∧ fromisoformat (("not-a-date").toList) = none
     ∧ ([] : List KanbanTask).any (sameKey tdTimes) = false)
    ∧ (taskFromRecord tdTimes).created_at = some (("2024-03-15").toList)
    ∧ (taskFromRecord tdTimes).completed_at = none
    ∧ migrate_tasks [tdTimes] [] = (1, [] ++ [taskFromRecord tdTimes]) :=
  ⟨⟨by decide, by decide, by decide, by decide, by decide⟩,
   (c7_timestamp_overrides tdTimes [] (("2024-03-15").toList)
      (("2024-03-15").toList)).1 (by decide) (by decide),
   (c7_timestamp_overrides tdTimes [] (("not-a-date").toList)
      (("not-a-date").toList)).2.2.2.2.1 (by decide) (by decide),
   (c7_timestamp_overrides tdTimes [] ([]) ([])).2.2.2.2.2.2 (by decide)⟩

/-- Counterexample to C8: a task already in status "completed" (but sitting
in "In Progress" with no completion timestamp) moved into "Completed" does
NOT get `completed_at` stamped — the route only stamps when the status was
not already "completed". -/
theorem c8_counterexample :
    (move_task dbMoveA (("Completed").toList) 0 5).sect = ("Completed").toList
    ∧ (move_task dbMoveA (("Completed").toList) 0 5).status = ("completed").toList
    ∧ (move_task dbMoveA (("Completed").toList) 0 5).completed_at = none
    ∧ (none : Option Nat) ≠ some 5 := by
  decide

/-- C8 as amended: a move always sets the section and position; moving into
"Completed" sets status=completed and stamps `completed_at` only when the
status was not already "completed" (otherwise both are left as they were);
moving out of "Completed" always resets status to "pending" and clears
`completed_at`. -/
theorem c8_amended (t : DbTask) (newSection : List Char) (newPosition : Int)
    (now : Nat) :
    (move_task t newSection newPosition now).sect = newSection
    ∧ (move_task t newSection newPosition now).position = newPosition
    ∧ (newSection = ("Completed").toList → t.status ≠ ("completed").toList →
        (move_task t newSection newPosition now).status = ("completed").toList
        ∧ (move_task t newSection newPosition now).completed_at = some now)
    ∧ (newSection = ("Completed").toList → t.status = ("completed").toList →
        (move_task t newSection newPosition now).status = t.status
        ∧ (move_task t newSection newPosition now).completed_at = t.completed_at)
    ∧ (t.sect = ("Completed").toList → newSection ≠ ("Completed").toList →
        (move_task t newSection newPosition now).status = ("pending").toList
        ∧ (move_task t newSection newPosition now).completed_at = none) := by
  refine ⟨?_, ?_, ?_, ?_, ?_⟩
  · simp only [move_task]
    split_ifs <;> rfl
  · simp only [move_task]
    split_ifs <;> rfl
  · intro h1 h2
    simp only [move_task]
    split_ifs with ha hb hb
    · exact absurd h1 ha.2
    · exact absurd h1 ha.2
    · exact ⟨rfl, rfl⟩
    · exact absurd ⟨h1, h2⟩ hb
  · intro h1 h2
    simp only [move_task]
    split_ifs with ha hb hb
    · exact absurd h1 ha.2
    · exact absurd h1 ha.2
    · exact absurd hb.2 (fun hn => hn h2)
    · exact ⟨rfl, rfl⟩
  · intro h1 h2
    simp only [move_task]
    split_ifs with ha hb hb
    · exact ⟨rfl, rfl⟩
    · exact ⟨rfl, rfl⟩
    · exact absurd ⟨h1, h2⟩ ha
    · exact absurd ⟨h1, h2⟩ ha

/-- Witness for C8 (amended): a pending task moved into "Completed" gets
stamped, and a completed task moved out of "Completed" is reset. -/
theorem c8_amended_witness :
    ((("Completed").toList = ("Completed").toList
      ∧ dbMoveB.status ≠ ("completed").toList)
     ∧ (dbMoveC.sect = ("Completed").toList
      ∧ (("To Do").toList) ≠ ("Completed").toList))
    ∧ ((move_task dbMoveB (("Completed").toList) 0 9).status = ("completed").toList
       ∧ (move_task dbMoveB (("Completed").toList) 0 9).completed_at = some 9)
    ∧ ((move_task dbMoveC (("To Do").toList) 2 9).status = ("pending").toList
       ∧ (move_task dbMoveC (("To Do").toList) 2 9).completed_at = none) :=
  ⟨⟨⟨rfl, by decide⟩, ⟨by decide, by decide⟩⟩,
   (c8_amended dbMoveB (("Completed").toList) 0 9).2.2.1 rfl (by decide),
   (c8_amended dbMoveC (("To Do").toList) 2 9).2.2.2.2 (by decide) (by decide)⟩

end MS
